import Mathlib

/-!
Shallow embedding of the AarogyaAI backend (src/main.py, src/schemas.py).

Modelling conventions:
* A stored document is an association list of field names to values, in
  insertion order (Python dicts preserve insertion order; all documents
  this app writes have pairwise distinct keys).
* Datetimes are abstract ticks (`Nat`); `datetime.utcnow()` is passed in as
  an explicit `now : Nat` parameter where the handler reads the clock.
* Python floats are modelled as rationals; every literal appearing in the
  risk heuristic (0.15, 0.2, 0.3, 0.6, 0.85, 1.0) is exact in both.
* The document store (`database.py`, imported by main.py but not among the
  source files) is modelled from the spec, section 4.1; the definitions
  below carry doc comments saying so.  A `Store` value models a live,
  connected store; the `db is None` / StoreUnavailable (503) branch of the
  handlers corresponds to there being no `Store` at all and is outside this
  embedding.
-/

namespace Aarogya

/-- A field value of a stored document. -/
inductive Value where
  | str (s : String)
  | num (q : ℚ)
  | bool (b : Bool)
  | dt (t : Nat)
  | oid (n : Nat)
  | strlist (l : List String)
  | null
deriving DecidableEq

/-- A stored document: fields in insertion order, distinct keys. -/
abbrev Doc := List (String × Value)

/-- First-match field lookup (Python dict access; keys are distinct). -/
def getField (d : Doc) (k : String) : Option Value :=
  (d.find? (fun p => p.1 = k)).map (fun p => p.2)

/-- Association list of collections, keyed by collection name. -/
abbrev Colls := List (String × List Doc)

def collsGet : Colls → String → List Doc
  | [], _ => []
  | (c0, ds) :: t, c => if c0 = c then ds else collsGet t c

def collsInsert : Colls → String → Doc → Colls
  | [], c, d => [(c, [d])]
  | (c0, ds) :: t, c, d =>
      if c0 = c then (c0, ds ++ [d]) :: t else (c0, ds) :: collsInsert t c d

def collsSet : Colls → String → List Doc → Colls
  | [], c, ds => [(c, ds)]
  | (c0, ds0) :: t, c, ds =>
      if c0 = c then (c0, ds) :: t else (c0, ds0) :: collsSet t c ds

/-- A live document store: its collections and the next fresh identifier. -/
structure Store where
  colls : Colls
  nextId : Nat
deriving DecidableEq

def getColl (st : Store) (c : String) : List Doc :=
  collsGet st.colls c

/-- Rendering of a store-assigned identifier as a string (Python
    `str(ObjectId)`), modelled as an injective rendering of the counter. -/
def oidStr (n : Nat) : String :=
  toString n

/-- Conjunction of exact-match predicates, one per filter entry. -/
def docMatches (filt : List (String × Value)) (d : Doc) : Bool :=
  filt.all (fun p => getField d p.1 = some p.2)

/-- Modelled from the spec: `database.py` is not among the source files.
    Spec section 4.1: `insert(collection, document) -> identifier`
    serializes the entity fields (excluding unset optional fields) into a
    new document and returns the store-assigned unique identifier as a
    string; side effect is one durable write.  The store assigns the fresh
    identifier as the document identifier field. -/
def create_document (coll : String) (d : Doc) (st : Store) : String × Store :=
  (oidStr st.nextId,
   ⟨collsInsert st.colls coll (("_id", Value.oid st.nextId) :: d), st.nextId + 1⟩)

/-- Modelled from the spec: `database.py` is not among the source files.
    Spec section 4.1: `query(collection, filter, limit)` returns at most
    `limit` documents matching all filter predicates (logical AND, equality
    only), in store-default (insertion) order. -/
def get_documents (coll : String) (filt : List (String × Value)) (limit : Nat)
    (st : Store) : List Doc :=
  ((getColl st coll).filter (docMatches filt)).take limit

/-- `find_one` of the store driver: first document matching the filter. -/
def find_one (st : Store) (coll : String) (filt : List (String × Value)) :
    Option Doc :=
  (getColl st coll).find? (docMatches filt)

/-- One step of an update: set field `k` to `v` (overwrite in place when
    present, append when absent), as the store driver's set operator does. -/
def setField (d : Doc) (k : String) (v : Value) : Doc :=
  if d.any (fun p => p.1 = k) then
    d.map (fun p => if p.1 = k then (k, v) else p)
  else
    d ++ [(k, v)]

/-- Apply a set-update document field by field. -/
def applySet (d : Doc) (upd : List (String × Value)) : Doc :=
  upd.foldl (fun a p => setField a p.1 p.2) d

/-- `update_one`: rewrite the first document matching the predicate. -/
def updateFirst (p : Doc → Bool) (upd : List (String × Value)) :
    List Doc → List Doc
  | [] => []
  | d :: ds => if p d then applySet d upd :: ds else d :: updateFirst p upd ds

/-! ### Serialization (main.py `_serialize`) -/

/-- ISO-8601 rendering of a datetime tick (Python `datetime.isoformat`),
    modelled as an injective rendering of the tick. -/
def isoformat (t : Nat) : String :=
  toString t

/-- Python `str` applied to a stored value (in `_serialize` it is only ever
    applied to the identifier field's value). -/
def valueStr : Value → String
  | .str s => s
  | .num q => toString q
  | .bool b => toString b
  | .dt t => isoformat t
  | .oid n => oidStr n
  | .strlist l => toString l
  | .null => "None"

/-- One iteration of the `_serialize` loop over `doc.items()`: the
    identifier field becomes a string field named id, a datetime value
    becomes its ISO-8601 text, everything else passes through. -/
def serializePair : String × Value → String × Value
  | (k, v) =>
    if k = "_id" then ("id", Value.str (valueStr v))
    else
      match v with
      | Value.dt t => (k, Value.str (isoformat t))
      | _ => (k, v)

/-- `_serialize` applied to a (non-null) document. -/
def serializeDoc (d : Doc) : Doc :=
  d.map serializePair

/-- main.py `_serialize`: `None` input (modelled as `none`) is returned
    unchanged; otherwise each field is converted by `serializePair`. -/
def _serialize : Option Doc → Option Doc
  | none => none
  | some d => some (serializeDoc d)

/-! ### Entity schemas (schemas.py) -/

inductive Gender where
  | male
  | female
  | other
  | prefer_not_to_say
deriving DecidableEq

def genderStr : Gender → String
  | .male => "male"
  | .female => "female"
  | .other => "other"
  | .prefer_not_to_say => "prefer_not_to_say"

inductive Theme where
  | dark
  | light
  | system
deriving DecidableEq

def themeStr : Theme → String
  | .dark => "dark"
  | .light => "light"
  | .system => "system"

/-- schemas.py `UserProfile` (the EmailStr format refinement and the
    numeric range refinements do not bear on any claim and are elided). -/
structure UserProfile where
  name : String
  email : String
  phone : Option String := none
  age : Option Int := none
  gender : Option Gender := none
  height_cm : Option ℚ := none
  weight_kg : Option ℚ := none
  theme : Theme := .dark
  notifications_enabled : Bool := true
deriving DecidableEq

inductive Role where
  | user
  | assistant
deriving DecidableEq

def roleStr : Role → String
  | .user => "user"
  | .assistant => "assistant"

/-- schemas.py `ChatMessage`. -/
structure ChatMessage where
  conversation_id : Option String := none
  role : Role
  content : String
  owner_email : Option String := none
deriving DecidableEq

inductive Severity where
  | mild
  | moderate
  | severe
deriving DecidableEq

def severityStr : Severity → String
  | .mild => "mild"
  | .moderate => "moderate"
  | .severe => "severe"

/-- schemas.py `SymptomCheck` (the [0,1] refinement on the inbound
    risk_score is elided; the handler ignores the inbound value). -/
structure SymptomCheck where
  symptoms : List String
  duration : Option String := none
  severity : Option Severity := none
  notes : Option String := none
  assessment : Option String := none
  risk_score : Option ℚ := none
  owner_email : Option String := none
deriving DecidableEq

/-- A field of the serialized entity, present only when set. -/
def optField (k : String) : Option Value → List (String × Value)
  | none => []
  | some v => [(k, v)]

/-- Entity-to-document serialization of a `UserProfile`, fields in
    declaration order, unset optional fields excluded (spec section 4.1). -/
def docOfUserProfile (p : UserProfile) : Doc :=
  [("name", Value.str p.name), ("email", Value.str p.email)]
    ++ optField "phone" (p.phone.map Value.str)
    ++ optField "age" (p.age.map (fun a => Value.num a))
    ++ optField "gender" (p.gender.map (fun g => Value.str (genderStr g)))
    ++ optField "height_cm" (p.height_cm.map Value.num)
    ++ optField "weight_kg" (p.weight_kg.map Value.num)
    ++ [("theme", Value.str (themeStr p.theme)),
        ("notifications_enabled", Value.bool p.notifications_enabled)]

/-- Entity-to-document serialization of a `ChatMessage`. -/
def docOfChatMessage (m : ChatMessage) : Doc :=
  optField "conversation_id" (m.conversation_id.map Value.str)
    ++ [("role", Value.str (roleStr m.role)), ("content", Value.str m.content)]
    ++ optField "owner_email" (m.owner_email.map Value.str)

/-- Entity-to-document serialization of a `SymptomCheck`. -/
def docOfSymptomCheck (e : SymptomCheck) : Doc :=
  [("symptoms", Value.strlist e.symptoms)]
    ++ optField "duration" (e.duration.map Value.str)
    ++ optField "severity" (e.severity.map (fun s => Value.str (severityStr s)))
    ++ optField "notes" (e.notes.map Value.str)
    ++ optField "assessment" (e.assessment.map Value.str)
    ++ optField "risk_score" (e.risk_score.map Value.num)
    ++ optField "owner_email" (e.owner_email.map Value.str)

/-! ### Error taxonomy of the HTTP layer -/

inductive HErr where
  | http (status : Nat) (detail : String)
  | validation
deriving DecidableEq

/-- The Conflict condition of the spec: main.py raises HTTP 400 with this
    detail when a profile with the submitted email already exists. -/
def conflictError : HErr :=
  .http 400 "Profile with this email already exists"

def notFoundError : HErr :=
  .http 404 "Profile not found"

/-- FastAPI `Query(dflt, ge=lo, le=hi)` on an integer parameter: an absent
    parameter takes the default, an out-of-range value is rejected with a
    validation error before the handler runs. -/
def intQuery (dflt lo hi : Int) : Option Int → Except HErr Int
  | none => .ok dflt
  | some l => if l < lo ∨ hi < l then .error .validation else .ok l

/-- The handlers build an equality filter from an optional query string
    only when it is truthy (Python `if owner_email:`; the empty string is
    falsy). -/
def strQueryFilt (k : String) : Option String → List (String × Value)
  | none => []
  | some s => if s = "" then [] else [(k, Value.str s)]

/-! ### Handlers (main.py) -/

/-- main.py `create_profile`: read-before-write uniqueness check on email,
    then insert. -/
def create_profile (profile : UserProfile) (st : Store) :
    Except HErr String × Store :=
  let existing := get_documents "userprofile" [("email", Value.str profile.email)] 1 st
  if existing ≠ [] then (.error conflictError, st)
  else
    let (new_id, st1) := create_document "userprofile" (docOfUserProfile profile) st
    (.ok new_id, st1)

/-- main.py `ProfileUpdate` request body. -/
structure ProfileUpdate where
  name : Option String := none
  phone : Option String := none
  age : Option Int := none
  gender : Option String := none
  height_cm : Option ℚ := none
  weight_kg : Option ℚ := none
  theme : Option String := none
  notifications_enabled : Option Bool := none
deriving DecidableEq

/-- `changes.model_dump().items()` in declaration order, unset fields as
    `none`. -/
def profileUpdateItems (c : ProfileUpdate) : List (String × Option Value) :=
  [("name", c.name.map Value.str),
   ("phone", c.phone.map Value.str),
   ("age", c.age.map (fun a => Value.num a)),
   ("gender", c.gender.map Value.str),
   ("height_cm", c.height_cm.map Value.num),
   ("weight_kg", c.weight_kg.map Value.num),
   ("theme", c.theme.map Value.str),
   ("notifications_enabled", c.notifications_enabled.map Value.bool)]

/-- The update document main.py builds: the non-null fields of the body,
    then the refreshed modification timestamp. -/
def profileUpdateData (c : ProfileUpdate) (now : Nat) : List (String × Value) :=
  (profileUpdateItems c).filterMap (fun p => p.2.map (fun v => (p.1, v)))
    ++ [("updated_at", Value.dt now)]

/-- main.py `update_profile` (on a live store; the unconfigured-store 503
    branch has no `Store` and is outside this embedding). -/
def update_profile (email : String) (changes : ProfileUpdate) (now : Nat)
    (st : Store) : Except HErr Unit × Store :=
  match find_one st "userprofile" [("email", Value.str email)] with
  | none => (.error notFoundError, st)
  | some _ =>
      (.ok (),
       ⟨collsSet st.colls "userprofile"
          (updateFirst (docMatches [("email", Value.str email)])
            (profileUpdateData changes now) (getColl st "userprofile")),
        st.nextId⟩)

/-- main.py `list_reports`. -/
def list_reports (owner_email : Option String) (limit : Option Int)
    (st : Store) : Except HErr (List Doc) :=
  match intQuery 25 1 100 limit with
  | .error e => .error e
  | .ok l =>
      .ok ((get_documents "report" (strQueryFilt "owner_email" owner_email)
             l.toNat st).map serializeDoc)

def replyText : String :=
  "I\x27m your AarogyaAI assistant. While I can\x27t provide medical diagnosis, I can help you track symptoms and suggest next steps. Could you share more details?"

structure ChatResult where
  user_message_id : String
  assistant_message_id : String
  reply : String
deriving DecidableEq

/-- main.py `chat`: persist the inbound message, then synthesize and
    persist the placeholder assistant reply. -/
def chat (message : ChatMessage) (st : Store) : ChatResult × Store :=
  let (user_msg_id, st1) := create_document "chatmessage" (docOfChatMessage message) st
  let assistant_msg : ChatMessage :=
    { conversation_id := message.conversation_id
      role := .assistant
      content := replyText
      owner_email := message.owner_email }
  let (assistant_msg_id, st2) :=
    create_document "chatmessage" (docOfChatMessage assistant_msg) st1
  ({ user_message_id := user_msg_id
     assistant_message_id := assistant_msg_id
     reply := replyText }, st2)

/-- Sort key of `chat_history`: `d.get("created_at", datetime.utcnow())`.
    A document without a datetime-valued created_at field keys as the
    current time. -/
def createdKey (now : Nat) (d : Doc) : Nat :=
  match getField d "created_at" with
  | some (Value.dt t) => t
  | _ => now

/-- Stable insertion by key: the element goes before the first strictly
    larger key, after equal keys already present. -/
def orderedInsertBy (key : Doc → Nat) (a : Doc) : List Doc → List Doc
  | [] => [a]
  | b :: l => if key a ≤ key b then a :: b :: l else b :: orderedInsertBy key a l

/-- Stable sort by key.  Python `list.sort(key=...)` is a stable sort;
    any two stable sorts by the same key agree, so this insertion sort is
    extensionally the sort main.py performs. -/
def sortByKey (key : Doc → Nat) : List Doc → List Doc
  | [] => []
  | a :: l => orderedInsertBy key a (sortByKey key l)

/-- The documents `chat_history` returns, before `_serialize`. -/
def chatHistoryDocs (conversation_id owner_email : Option String)
    (limit : Nat) (now : Nat) (st : Store) : List Doc :=
  sortByKey (createdKey now)
    (get_documents "chatmessage"
      (strQueryFilt "conversation_id" conversation_id
        ++ strQueryFilt "owner_email" owner_email) limit st)

/-- main.py `chat_history`. -/
def chat_history (conversation_id owner_email : Option String)
    (limit : Option Int) (now : Nat) (st : Store) :
    Except HErr (List Doc) :=
  match intQuery 50 1 200 limit with
  | .error e => .error e
  | .ok l =>
      .ok ((chatHistoryDocs conversation_id owner_email l.toNat now st).map
            serializeDoc)

def sevWeightTable : Option Severity → ℚ
  | none => 0.2
  | some .mild => 0.3
  | some .moderate => 0.6
  | some .severe => 0.85

def assessmentText : String :=
  "Symptoms recorded. If symptoms worsen or you experience severe issues (e.g., chest pain, difficulty breathing), please seek immediate medical attention."

structure SymptomsResult where
  id : String
  risk_score : ℚ
  assessment : String
deriving DecidableEq

/-- main.py `submit_symptoms`: compute the heuristic risk score, overwrite
    the computed fields, persist the enriched record. -/
def submit_symptoms (entry : SymptomCheck) (st : Store) :
    SymptomsResult × Store :=
  let count : ℚ := entry.symptoms.length
  let sev_weight := sevWeightTable entry.severity
  let risk := min (1 : ℚ) (0.15 * count + sev_weight)
  let enriched : SymptomCheck :=
    { symptoms := entry.symptoms
      duration := entry.duration
      severity := entry.severity
      notes := entry.notes
      assessment := some assessmentText
      risk_score := some risk
      owner_email := entry.owner_email }
  let (new_id, st1) := create_document "symptomcheck" (docOfSymptomCheck enriched) st
  ({ id := new_id, risk_score := risk, assessment := assessmentText }, st1)

/-- main.py `list_symptom_checks`. -/
def list_symptom_checks (owner_email : Option String) (limit : Option Int)
    (st : Store) : Except HErr (List Doc) :=
  match intQuery 25 1 100 limit with
  | .error e => .error e
  | .ok l =>
      .ok ((get_documents "symptomcheck"
             (strQueryFilt "owner_email" owner_email) l.toNat st).map
            serializeDoc)

/-- main.py `list_reminders`. -/
def list_reminders (owner_email : Option String) (limit : Option Int)
    (st : Store) : Except HErr (List Doc) :=
  match intQuery 50 1 100 limit with
  | .error e => .error e
  | .ok l =>
      .ok ((get_documents "reminder" (strQueryFilt "owner_email" owner_email)
             l.toNat st).map serializeDoc)

/-! ### Store lemmas -/

theorem collsGet_collsInsert_self (l : Colls) (c : String) (d : Doc) :
    collsGet (collsInsert l c d) c = collsGet l c ++ [d] := by
  induction l with
  | nil => simp [collsGet, collsInsert]
  | cons h t ih =>
      obtain ⟨c0, ds⟩ := h
      by_cases hc : c0 = c
      · subst hc; simp [collsGet, collsInsert]
      · simp [collsGet, collsInsert, hc, ih]

theorem collsGet_collsInsert_ne (l : Colls) (c c' : String) (d : Doc)
    (h : c' ≠ c) : collsGet (collsInsert l c d) c' = collsGet l c' := by
  induction l with
  | nil => simp [collsGet, collsInsert, Ne.symm h]
  | cons hd t ih =>
      obtain ⟨c0, ds⟩ := hd
      by_cases hc : c0 = c
      · subst hc
        simp [collsGet, collsInsert, Ne.symm h]
      · simp [collsGet, collsInsert, hc, ih]

theorem collsGet_collsSet_self (l : Colls) (c : String) (ds : List Doc) :
    collsGet (collsSet l c ds) c = ds := by
  induction l with
  | nil => simp [collsGet, collsSet]
  | cons hd t ih =>
      obtain ⟨c0, ds0⟩ := hd
      by_cases hc : c0 = c
      · subst hc; simp [collsGet, collsSet]
      · simp [collsGet, collsSet, hc, ih]

theorem collsGet_collsSet_ne (l : Colls) (c c' : String) (ds : List Doc)
    (h : c' ≠ c) : collsGet (collsSet l c ds) c' = collsGet l c' := by
  induction l with
  | nil => simp [collsGet, collsSet, Ne.symm h]
  | cons hd t ih =>
      obtain ⟨c0, ds0⟩ := hd
      by_cases hc : c0 = c
      · subst hc
        simp [collsGet, collsSet, Ne.symm h]
      · simp [collsGet, collsSet, hc, ih]

theorem getColl_create_document_self (coll : String) (d : Doc) (st : Store) :
    getColl (create_document coll d st).2 coll
      = getColl st coll ++ [("_id", Value.oid st.nextId) :: d] := by
  simp [getColl, create_document, collsGet_collsInsert_self]

theorem getColl_create_document_ne (coll c : String) (d : Doc) (st : Store)
    (h : c ≠ coll) :
    getColl (create_document coll d st).2 c = getColl st c := by
  simp [getColl, create_document, collsGet_collsInsert_ne _ _ _ _ h]

/-! ### Field update lemmas -/

theorem getField_cons (a : String × Value) (t : Doc) (k : String) :
    getField (a :: t) k = if a.1 = k then some a.2 else getField t k := by
  by_cases h : a.1 = k <;> simp [getField, List.find?, h]

theorem getField_append (d1 d2 : Doc) (k : String) :
    getField (d1 ++ d2) k = (getField d1 k).or (getField d2 k) := by
  unfold getField
  rw [List.find?_append]
  cases List.find? (fun p => decide (p.1 = k)) d1 <;> simp [Option.or]

theorem getField_map_replace_ne (d : Doc) (k k' : String) (v : Value)
    (h : k' ≠ k) :
    getField (d.map (fun p => if p.1 = k then (k, v) else p)) k'
      = getField d k' := by
  induction d with
  | nil => rfl
  | cons a t ih =>
      by_cases ha : a.1 = k
      · simp only [List.map_cons, if_pos ha]
        rw [getField_cons, getField_cons]
        simp only [Ne.symm h, if_false, ha]
        simp [ih]
      · simp only [List.map_cons, if_neg ha]
        rw [getField_cons, getField_cons]
        by_cases ha' : a.1 = k'
        · simp [ha']
        · simp [ha', ih]

theorem getField_map_replace_self (d : Doc) (k : String) (v : Value)
    (h : d.any (fun p => p.1 = k) = true) :
    getField (d.map (fun p => if p.1 = k then (k, v) else p)) k = some v := by
  induction d with
  | nil => simp at h
  | cons a t ih =>
      by_cases ha : a.1 = k
      · simp only [List.map_cons, if_pos ha]
        rw [getField_cons]
        simp
      · simp only [List.any_cons, ha] at h
        simp only [List.map_cons, if_neg ha]
        rw [getField_cons]
        simp only [ha, if_false]
        exact ih (by simpa using h)

theorem getField_eq_none_of_not_any (d : Doc) (k : String)
    (h : d.any (fun p => p.1 = k) = false) : getField d k = none := by
  induction d with
  | nil => rfl
  | cons a t ih =>
      simp only [List.any_cons, Bool.or_eq_false_iff] at h
      rw [getField_cons]
      have ha : a.1 ≠ k := by simpa using h.1
      simp only [ha, if_false]
      exact ih h.2

theorem getField_setField_self (d : Doc) (k : String) (v : Value) :
    getField (setField d k v) k = some v := by
  unfold setField
  by_cases h : d.any (fun p => p.1 = k) = true
  · rw [if_pos h]
    exact getField_map_replace_self d k v h
  · rw [if_neg h]
    rw [getField_append]
    rw [getField_eq_none_of_not_any d k (Bool.eq_false_iff.mpr h)]
    rw [getField_cons]
    simp [Option.or]

theorem getField_setField_ne (d : Doc) (k k' : String) (v : Value)
    (h : k' ≠ k) : getField (setField d k v) k' = getField d k' := by
  unfold setField
  by_cases hm : d.any (fun p => p.1 = k) = true
  · rw [if_pos hm]
    exact getField_map_replace_ne d k k' v h
  · rw [if_neg hm]
    rw [getField_append]
    rw [getField_cons]
    simp only [h, Ne.symm h, if_false]
    cases hd : getField d k' <;> simp [Option.or, getField]

theorem applySet_cons (d : Doc) (p : String × Value)
    (rest : List (String × Value)) :
    applySet d (p :: rest) = applySet (setField d p.1 p.2) rest := rfl

theorem getField_applySet_not_mem (d : Doc) (upd : List (String × Value))
    (k : String) (h : k ∉ upd.map Prod.fst) :
    getField (applySet d upd) k = getField d k := by
  induction upd generalizing d with
  | nil => rfl
  | cons p rest ih =>
      simp only [List.map_cons, List.mem_cons] at h
      push_neg at h
      rw [applySet_cons, ih _ h.2, getField_setField_ne _ _ _ _ h.1]

theorem getField_applySet_mem (d : Doc) (upd : List (String × Value))
    (k : String) (v : Value) (hnd : (upd.map Prod.fst).Nodup)
    (h : (k, v) ∈ upd) : getField (applySet d upd) k = some v := by
  induction upd generalizing d with
  | nil => simp at h
  | cons p rest ih =>
      rcases List.mem_cons.mp h with heq | hmem
      · subst heq
        simp only [List.map_cons, List.nodup_cons] at hnd
        rw [applySet_cons, getField_applySet_not_mem _ _ _ hnd.1,
          getField_setField_self]
      · simp only [List.map_cons, List.nodup_cons] at hnd
        rw [applySet_cons]
        exact ih _ hnd.2 hmem

theorem updateFirst_eq (p : Doc → Bool) (upd : List (String × Value))
    (pre : List Doc) (d : Doc) (post : List Doc)
    (hpre : ∀ x ∈ pre, p x = false) (hd : p d = true) :
    updateFirst p upd (pre ++ d :: post) = pre ++ applySet d upd :: post := by
  induction pre with
  | nil => simp [updateFirst, hd]
  | cons a t ih =>
      have ha := hpre a (List.mem_cons_self a t)
      simp only [List.cons_append, updateFirst, ha, Bool.false_eq_true,
        if_false, List.cons.injEq, true_and]
      exact ih (fun x hx => hpre x (List.mem_cons_of_mem a hx))

/-! ### Sort lemmas -/

theorem length_orderedInsertBy (key : Doc → Nat) (a : Doc) (l : List Doc) :
    (orderedInsertBy key a l).length = l.length + 1 := by
  induction l with
  | nil => rfl
  | cons b t ih =>
      rw [orderedInsertBy]
      by_cases h : key a ≤ key b
      · simp [h]
      · simp [h, ih]

theorem length_sortByKey (key : Doc → Nat) (l : List Doc) :
    (sortByKey key l).length = l.length := by
  induction l with
  | nil => rfl
  | cons a t ih =>
      rw [sortByKey, length_orderedInsertBy, ih]
      rfl

theorem mem_orderedInsertBy (key : Doc → Nat) (a x : Doc) (l : List Doc) :
    x ∈ orderedInsertBy key a l ↔ x ∈ a :: l := by
  induction l with
  | nil => simp [orderedInsertBy]
  | cons b t ih =>
      rw [orderedInsertBy]
      by_cases h : key a ≤ key b
      · simp [h]
      · simp only [h, if_false, List.mem_cons, ih]
        tauto

theorem pairwise_orderedInsertBy (key : Doc → Nat) (a : Doc) (l : List Doc)
    (h : l.Pairwise (fun x y => key x ≤ key y)) :
    (orderedInsertBy key a l).Pairwise (fun x y => key x ≤ key y) := by
  induction l with
  | nil => simp [orderedInsertBy]
  | cons b t ih =>
      rw [List.pairwise_cons] at h
      rw [orderedInsertBy]
      by_cases hab : key a ≤ key b
      · rw [if_pos hab]
        refine List.Pairwise.cons ?_ (List.Pairwise.cons h.1 h.2)
        intro x hx
        rcases List.mem_cons.mp hx with hxb | hxt
        · exact hxb ▸ hab
        · exact le_trans hab (h.1 x hxt)
      · rw [if_neg hab]
        refine List.Pairwise.cons ?_ (ih h.2)
        intro x hx
        rcases List.mem_cons.mp ((mem_orderedInsertBy key a x t).mp hx) with
          hxa | hxt
        · exact hxa ▸ le_of_not_le hab
        · exact h.1 x hxt

theorem pairwise_sortByKey (key : Doc → Nat) (l : List Doc) :
    (sortByKey key l).Pairwise (fun x y => key x ≤ key y) := by
  induction l with
  | nil => exact List.Pairwise.nil
  | cons a t ih => exact pairwise_orderedInsertBy key a _ ih

/-! ### Keys of the profile update document -/

theorem keys_filterMap_sublist (l : List (String × Option Value)) :
    ((l.filterMap (fun p => p.2.map (fun v => (p.1, v)))).map Prod.fst).Sublist
      (l.map Prod.fst) := by
  induction l with
  | nil => simp
  | cons p t ih =>
      cases hp : p.2 with
      | none =>
          simp only [List.filterMap_cons, hp, Option.map_none, List.map_cons]
          exact ih.cons p.1
      | some v =>
          simp only [List.filterMap_cons, hp, Option.map_some, List.map_cons]
          exact ih.cons₂ p.1

def profileUpdateKeyList : List String :=
  ["name", "phone", "age", "gender", "height_cm", "weight_kg", "theme",
   "notifications_enabled", "updated_at"]

theorem profileUpdateData_keys_sublist (c : ProfileUpdate) (now : Nat) :
    ((profileUpdateData c now).map Prod.fst).Sublist profileUpdateKeyList := by
  unfold profileUpdateData profileUpdateKeyList
  rw [List.map_append]
  have h1 := keys_filterMap_sublist (profileUpdateItems c)
  have h2 : (profileUpdateItems c).map Prod.fst
      = ["name", "phone", "age", "gender", "height_cm", "weight_kg", "theme",
         "notifications_enabled"] := rfl
  rw [h2] at h1
  exact List.Sublist.append h1 (List.Sublist.refl _)

theorem profileUpdateData_keys_nodup (c : ProfileUpdate) (now : Nat) :
    ((profileUpdateData c now).map Prod.fst).Nodup :=
  (profileUpdateData_keys_sublist c now).nodup (by decide)

theorem email_not_mem_profileUpdateData_keys (c : ProfileUpdate) (now : Nat) :
    "email" ∉ (profileUpdateData c now).map Prod.fst := by
  intro h
  have := (profileUpdateData_keys_sublist c now).subset h
  simp [profileUpdateKeyList] at this

theorem updated_at_mem_profileUpdateData (c : ProfileUpdate) (now : Nat) :
    ("updated_at", Value.dt now) ∈ profileUpdateData c now :=
  List.mem_append_right _ (List.mem_singleton.mpr rfl)

theorem getField_optField_ne (k k' : String) (o : Option Value) (rest : Doc)
    (h : k' ≠ k) : getField (optField k' o ++ rest) k = getField rest k := by
  cases o with
  | none => rfl
  | some v =>
      simp only [optField, List.cons_append, List.nil_append]
      rw [getField_cons]
      simp [h]

/-! ### Claim theorems -/

/-- The severity weight table as the spec states it
    (null ↦ 0.20, mild ↦ 0.30, moderate ↦ 0.60, severe ↦ 0.85). -/
def specSeverityWeight : Option Severity → ℚ
  | none => 0.20
  | some .mild => 0.30
  | some .moderate => 0.60
  | some .severe => 0.85

/-- The risk formula as the spec states it:
    `riskScore = min(1.0, 0.15 * N + severityWeight)`. -/
def specRiskScore (n : Nat) (s : Option Severity) : ℚ :=
  min 1 (0.15 * (n : ℚ) + specSeverityWeight s)

theorem getField_cons_ne (a : String) (v : Value) (t : Doc) (k : String)
    (h : a ≠ k) : getField ((a, v) :: t) k = getField t k := by
  rw [getField_cons]
  simp [h]

theorem sevWeightTable_eq_spec (s : Option Severity) :
    sevWeightTable s = specSeverityWeight s := by
  rcases s with _ | s
  · norm_num [sevWeightTable, specSeverityWeight]
  · cases s <;> norm_num [sevWeightTable, specSeverityWeight]

theorem specSeverityWeight_nonneg (s : Option Severity) :
    0 ≤ specSeverityWeight s := by
  rcases s with _ | s
  · norm_num [specSeverityWeight]
  · cases s <;> norm_num [specSeverityWeight]

/-- The document `submit_symptoms` persists (spec-modelled store: the
    fresh identifier field followed by the enriched entity fields). -/
def persistedSymptomDoc (entry : SymptomCheck) (st : Store) : Doc :=
  ("_id", Value.oid st.nextId) ::
    docOfSymptomCheck
      { symptoms := entry.symptoms
        duration := entry.duration
        severity := entry.severity
        notes := entry.notes
        assessment := some assessmentText
        risk_score := some (specRiskScore entry.symptoms.length entry.severity)
        owner_email := entry.owner_email }

/-- C1: for every SymptomCheck submission, the returned risk_score equals
    min(1, 0.15 * count(symptoms) + weight(severity)) with the spec's
    weight table, the result lies in [0,1], the persisted document carries
    exactly that risk_score and the fixed assessment text, and
    client-supplied risk_score/assessment are ignored and overwritten. -/
theorem c1_risk_score_correct (entry : SymptomCheck) (st : Store) :
    (submit_symptoms entry st).1.risk_score
        = specRiskScore entry.symptoms.length entry.severity
    ∧ 0 ≤ (submit_symptoms entry st).1.risk_score
    ∧ (submit_symptoms entry st).1.risk_score ≤ 1
    ∧ (submit_symptoms entry st).1.assessment = assessmentText
    ∧ getColl (submit_symptoms entry st).2 "symptomcheck"
        = getColl st "symptomcheck" ++ [persistedSymptomDoc entry st]
    ∧ getField (persistedSymptomDoc entry st) "risk_score"
        = some (Value.num (specRiskScore entry.symptoms.length entry.severity))
    ∧ getField (persistedSymptomDoc entry st) "assessment"
        = some (Value.str assessmentText)
    ∧ (∀ rs asmt,
        submit_symptoms
          { entry with risk_score := rs, assessment := asmt } st
          = submit_symptoms entry st) := by
  have hrisk : (submit_symptoms entry st).1.risk_score
      = specRiskScore entry.symptoms.length entry.severity := by
    simp [submit_symptoms, create_document, specRiskScore,
      sevWeightTable_eq_spec]
  refine ⟨hrisk, ?_, ?_, rfl, ?_, ?_, ?_, fun rs asmt => rfl⟩
  · rw [hrisk]
    unfold specRiskScore
    refine le_min (by norm_num) ?_
    have h1 : (0 : ℚ) ≤ 0.15 * (entry.symptoms.length : ℚ) := by positivity
    exact add_nonneg h1 (specSeverityWeight_nonneg entry.severity)
  · rw [hrisk]
    exact min_le_left _ _
  · have h2 : (submit_symptoms entry st).2
        = (create_document "symptomcheck"
            (docOfSymptomCheck
              { symptoms := entry.symptoms
                duration := entry.duration
                severity := entry.severity
                notes := entry.notes
                assessment := some assessmentText
                risk_score := some (specRiskScore entry.symptoms.length
                  entry.severity)
                owner_email := entry.owner_email }) st).2 := by
      simp [submit_symptoms, create_document, specRiskScore,
        sevWeightTable_eq_spec]
    rw [h2, getColl_create_document_self]
    rfl
  · unfold persistedSymptomDoc docOfSymptomCheck
    simp only [List.append_assoc, List.singleton_append, List.cons_append]
    rw [getField_cons_ne _ _ _ _ (by decide),
      getField_cons_ne _ _ _ _ (by decide)]
    simp only [List.nil_append]
    rw [getField_optField_ne _ _ _ _ (by decide),
      getField_optField_ne _ _ _ _ (by decide),
      getField_optField_ne _ _ _ _ (by decide),
      getField_optField_ne _ _ _ _ (by decide)]
    simp [optField, getField_cons]
  · unfold persistedSymptomDoc docOfSymptomCheck
    simp only [List.append_assoc, List.singleton_append, List.cons_append]
    rw [getField_cons_ne _ _ _ _ (by decide),
      getField_cons_ne _ _ _ _ (by decide)]
    simp only [List.nil_append]
    rw [getField_optField_ne _ _ _ _ (by decide),
      getField_optField_ne _ _ _ _ (by decide),
      getField_optField_ne _ _ _ _ (by decide)]
    simp [optField, getField_cons]

theorem serializePair_idem (p : String × Value) :
    serializePair (serializePair p) = serializePair p := by
  obtain ⟨k, v⟩ := p
  by_cases hk : k = "_id"
  · subst hk
    simp [serializePair]
  · cases v <;> simp [serializePair, hk]

/-- C4: the serialization function is total on null input (returns null)
    and idempotent (applying it twice to any document equals applying it
    once); it maps the store identifier field to a string id field,
    converts every datetime-valued field to ISO-8601 text, and passes all
    other fields through unchanged. -/
theorem c4_serialize_total_idempotent :
    _serialize none = none
    ∧ (∀ x : Option Doc, _serialize (_serialize x) = _serialize x)
    ∧ (∀ d : Doc, _serialize (some d) = some (d.map serializePair))
    ∧ (∀ v : Value, serializePair ("_id", v) = ("id", Value.str (valueStr v)))
    ∧ (∀ (k : String) (t : Nat), k ≠ "_id" →
        serializePair (k, Value.dt t) = (k, Value.str (isoformat t)))
    ∧ (∀ (k : String) (v : Value), k ≠ "_id" → (∀ t, v ≠ Value.dt t) →
        serializePair (k, v) = (k, v)) := by
  refine ⟨rfl, ?_, fun d => rfl, fun v => by simp [serializePair], ?_, ?_⟩
  · intro x
    cases x with
    | none => rfl
    | some d =>
        simp only [_serialize, serializeDoc, Option.some.injEq, List.map_map]
        exact List.map_congr_left (fun p _ => serializePair_idem p)
  · intro k t hk
    simp [serializePair, hk]
  · intro k v hk hv
    cases v <;> simp [serializePair, hk]
    exact absurd rfl (hv _)

/-- Witness for C4 at concrete inputs. -/
theorem c4_serialize_total_idempotent_witness :
    serializePair ("x", Value.dt 3) = ("x", Value.str (isoformat 3))
    ∧ serializePair ("y", Value.bool true) = ("y", Value.bool true) :=
  ⟨c4_serialize_total_idempotent.2.2.2.2.1 "x" 3 (by decide),
   c4_serialize_total_idempotent.2.2.2.2.2 "y" (Value.bool true) (by decide)
     (fun t h => by cases h)⟩

theorem docMatches_single (k : String) (v : Value) (d : Doc) :
    docMatches [(k, v)] d = true ↔ getField d k = some v := by
  simp [docMatches]

theorem get_documents_one_eq_nil_iff (coll : String)
    (filt : List (String × Value)) (st : Store) :
    get_documents coll filt 1 st = []
      ↔ ∀ d ∈ getColl st coll, docMatches filt d = false := by
  unfold get_documents
  rw [List.take_eq_nil_iff]
  constructor
  · intro h d hd
    rcases h with h1 | h2
    · exact absurd h1 (by decide)
    · exact Bool.eq_false_iff.mpr (List.filter_eq_nil_iff.mp h2 d hd)
  · intro h
    right
    exact List.filter_eq_nil_iff.mpr
      (fun d hd => Bool.eq_false_iff.mp (h d hd))

/-- C2: a profile creation with an email that already exists in the store
    fails with the Conflict condition (HTTP 400, duplicate unique field)
    and inserts nothing; otherwise it inserts the profile and returns the
    new identifier. -/
theorem c2_create_profile_conflict (p : UserProfile) (st : Store) :
    ((∃ d ∈ getColl st "userprofile",
        getField d "email" = some (Value.str p.email)) →
      create_profile p st = (.error conflictError, st))
    ∧ ((∀ d ∈ getColl st "userprofile",
        getField d "email" ≠ some (Value.str p.email)) →
      create_profile p st
        = (.ok (oidStr st.nextId),
           (create_document "userprofile" (docOfUserProfile p) st).2)
      ∧ getColl (create_profile p st).2 "userprofile"
          = getColl st "userprofile"
            ++ [("_id", Value.oid st.nextId) :: docOfUserProfile p]) := by
  constructor
  · rintro ⟨d, hd, hmail⟩
    have hne : get_documents "userprofile"
        [("email", Value.str p.email)] 1 st ≠ [] := by
      intro hnil
      have := (get_documents_one_eq_nil_iff _ _ _).mp hnil d hd
      rw [Bool.eq_false_iff] at this
      exact this ((docMatches_single _ _ _).mpr hmail)
    unfold create_profile
    rw [if_pos hne]
  · intro hall
    have hnil : get_documents "userprofile"
        [("email", Value.str p.email)] 1 st = [] := by
      apply (get_documents_one_eq_nil_iff _ _ _).mpr
      intro d hd
      rw [Bool.eq_false_iff]
      intro hm
      exact hall d hd ((docMatches_single _ _ _).mp hm)
    have heq : create_profile p st
        = (.ok (oidStr st.nextId),
           (create_document "userprofile" (docOfUserProfile p) st).2) := by
      unfold create_profile
      rw [if_neg (fun hc => hc hnil)]
      rfl
    refine ⟨heq, ?_⟩
    rw [heq]
    exact getColl_create_document_self _ _ _

/-- Witness for C2: on a store holding a profile with the same email the
    creation fails with Conflict and writes nothing; on an empty store it
    inserts and returns the fresh identifier. -/
theorem c2_create_profile_conflict_witness :
    create_profile { name := "B", email := "a@b.com" }
        ⟨[("userprofile",
           [[("name", Value.str "A"), ("email", Value.str "a@b.com")]])], 7⟩
      = (.error conflictError,
         ⟨[("userprofile",
            [[("name", Value.str "A"), ("email", Value.str "a@b.com")]])], 7⟩)
    ∧ create_profile { name := "B", email := "a@b.com" } ⟨[], 0⟩
      = (.ok (oidStr 0),
         (create_document "userprofile"
           (docOfUserProfile { name := "B", email := "a@b.com" })
           ⟨[], 0⟩).2) :=
  ⟨(c2_create_profile_conflict { name := "B", email := "a@b.com" } _).1
      ⟨[("name", Value.str "A"), ("email", Value.str "a@b.com")],
        by decide, by decide⟩,
   ((c2_create_profile_conflict { name := "B", email := "a@b.com" } _).2
      (by decide)).1⟩

theorem find_one_eq_none_iff (st : Store) (coll : String)
    (filt : List (String × Value)) :
    find_one st coll filt = none
      ↔ ∀ d ∈ getColl st coll, docMatches filt d = false := by
  unfold find_one
  rw [List.find?_eq_none]
  constructor
  · intro h d hd
    exact Bool.eq_false_iff.mpr (h d hd)
  · intro h d hd
    exact Bool.eq_false_iff.mp (h d hd)

/-- C6: a profile update addressed to an email with no stored profile
    fails with NotFound and performs no write, whatever the request body. -/
theorem c6_update_profile_not_found (email : String)
    (changes : ProfileUpdate) (now : Nat) (st : Store)
    (h : ∀ d ∈ getColl st "userprofile",
      getField d "email" ≠ some (Value.str email)) :
    update_profile email changes now st = (.error notFoundError, st) := by
  have hnone : find_one st "userprofile" [("email", Value.str email)] = none := by
    apply (find_one_eq_none_iff _ _ _).mpr
    intro d hd
    rw [Bool.eq_false_iff]
    intro hm
    exact h d hd ((docMatches_single _ _ _).mp hm)
  unfold update_profile
  rw [hnone]

/-- Witness for C6: the spec's example, a body that only sets age, against
    a store with no profile for that email. -/
theorem c6_update_profile_not_found_witness :
    update_profile "a@b.com" { age := some 31 } 9
        ⟨[("userprofile",
           [[("name", Value.str "A"), ("email", Value.str "x@y.com")]])], 3⟩
      = (.error notFoundError,
         ⟨[("userprofile",
            [[("name", Value.str "A"), ("email", Value.str "x@y.com")]])], 3⟩) :=
  c6_update_profile_not_found "a@b.com" { age := some 31 } 9 _ (by decide)

theorem find_first (p : Doc → Bool) (pre : List Doc) (d : Doc)
    (post : List Doc) (hpre : ∀ x ∈ pre, p x = false) (hd : p d = true) :
    (pre ++ d :: post).find? p = some d := by
  induction pre with
  | nil =>
      rw [List.nil_append]
      exact List.find?_cons_of_pos _ hd
  | cons a t ih =>
      have ha := hpre a (List.mem_cons_self a t)
      rw [List.cons_append, List.find?_cons_of_neg _ (by simp [ha])]
      exact ih (fun x hx => hpre x (List.mem_cons_of_mem a hx))

/-- Shared shape of a successful profile update: the store rewrites
    exactly the first matching document by the set-update document. -/
theorem update_profile_found (email : String) (changes : ProfileUpdate)
    (now : Nat) (st : Store) (pre : List Doc) (d : Doc) (post : List Doc)
    (hcoll : getColl st "userprofile" = pre ++ d :: post)
    (hpre : ∀ x ∈ pre, docMatches [("email", Value.str email)] x = false)
    (hd : docMatches [("email", Value.str email)] d = true) :
    update_profile email changes now st
      = (.ok (),
         ⟨collsSet st.colls "userprofile"
            (pre ++ applySet d (profileUpdateData changes now) :: post),
          st.nextId⟩) := by
  have hfind : find_one st "userprofile" [("email", Value.str email)]
      = some d := by
    unfold find_one
    rw [hcoll]
    exact find_first _ _ _ _ hpre hd
  unfold update_profile
  rw [hfind, hcoll, updateFirst_eq _ _ _ _ _ hpre hd]

/-- C7: a successful profile update writes exactly the explicitly-provided
    non-null fields of the body plus a fresh updated_at stamp into the
    matched document, leaves every other field of it unchanged, leaves the
    other documents and collections unchanged, and null body fields do not
    overwrite stored values. -/
theorem c7_update_profile_merge (email : String) (changes : ProfileUpdate)
    (now : Nat) (st : Store) (pre : List Doc) (d : Doc) (post : List Doc)
    (hcoll : getColl st "userprofile" = pre ++ d :: post)
    (hpre : ∀ x ∈ pre, docMatches [("email", Value.str email)] x = false)
    (hd : docMatches [("email", Value.str email)] d = true) :
    (update_profile email changes now st).1 = .ok ()
    ∧ getColl (update_profile email changes now st).2 "userprofile"
        = pre ++ applySet d (profileUpdateData changes now) :: post
    ∧ (∀ c, c ≠ "userprofile" →
        getColl (update_profile email changes now st).2 c = getColl st c)
    ∧ (∀ k, k ∉ (profileUpdateData changes now).map Prod.fst →
        getField (applySet d (profileUpdateData changes now)) k
          = getField d k)
    ∧ (∀ k v, (k, v) ∈ profileUpdateData changes now →
        getField (applySet d (profileUpdateData changes now)) k = some v)
    ∧ getField (applySet d (profileUpdateData changes now)) "updated_at"
        = some (Value.dt now) := by
  have heq := update_profile_found email changes now st pre d post
    hcoll hpre hd
  refine ⟨by rw [heq], ?_, ?_, ?_, ?_, ?_⟩
  · rw [heq]
    exact collsGet_collsSet_self _ _ _
  · intro c hc
    rw [heq]
    exact collsGet_collsSet_ne _ _ _ _ hc
  · intro k hk
    exact getField_applySet_not_mem _ _ _ hk
  · intro k v hkv
    exact getField_applySet_mem _ _ _ _ (profileUpdateData_keys_nodup _ _) hkv
  · exact getField_applySet_mem _ _ _ _ (profileUpdateData_keys_nodup _ _)
      (updated_at_mem_profileUpdateData _ _)

/-- Witness for C7: updating only the age of a stored profile stamps
    updated_at, sets age, and leaves name and email as they were. -/
theorem c7_update_profile_merge_witness :
    (update_profile "a@b.com" { age := some 31 } 9
        ⟨[("userprofile",
           [[("name", Value.str "A"), ("email", Value.str "a@b.com"),
             ("age", Value.num 30)]])], 3⟩).1 = .ok ()
    ∧ getField
        (applySet
          [("name", Value.str "A"), ("email", Value.str "a@b.com"),
           ("age", Value.num 30)]
          (profileUpdateData { age := some 31 } 9)) "age"
        = some (Value.num 31)
    ∧ getField
        (applySet
          [("name", Value.str "A"), ("email", Value.str "a@b.com"),
           ("age", Value.num 30)]
          (profileUpdateData { age := some 31 } 9)) "name"
        = some (Value.str "A")
    ∧ getField
        (applySet
          [("name", Value.str "A"), ("email", Value.str "a@b.com"),
           ("age", Value.num 30)]
          (profileUpdateData { age := some 31 } 9)) "updated_at"
        = some (Value.dt 9) := by
  have h := c7_update_profile_merge "a@b.com" { age := some 31 } 9
    ⟨[("userprofile",
       [[("name", Value.str "A"), ("email", Value.str "a@b.com"),
         ("age", Value.num 30)]])], 3⟩
    []
    [("name", Value.str "A"), ("email", Value.str "a@b.com"),
     ("age", Value.num 30)]
    [] (by decide) (by intro x hx; cases hx) (by decide)
  exact ⟨h.1,
    h.2.2.2.2.1 "age" (Value.num 31) (by decide),
    h.2.2.2.1 "name" (by decide),
    h.2.2.2.2.2⟩

/-- C10: the update body admits no email field, so a successful update
    leaves the stored profile's email unchanged. -/
theorem c10_update_preserves_email (email : String)
    (changes : ProfileUpdate) (now : Nat) (st : Store) (pre : List Doc)
    (d : Doc) (post : List Doc)
    (hcoll : getColl st "userprofile" = pre ++ d :: post)
    (hpre : ∀ x ∈ pre, docMatches [("email", Value.str email)] x = false)
    (hd : docMatches [("email", Value.str email)] d = true) :
    getColl (update_profile email changes now st).2 "userprofile"
        = pre ++ applySet d (profileUpdateData changes now) :: post
    ∧ getField (applySet d (profileUpdateData changes now)) "email"
        = getField d "email" := by
  have heq := update_profile_found email changes now st pre d post
    hcoll hpre hd
  refine ⟨?_, ?_⟩
  · rw [heq]
    exact collsGet_collsSet_self _ _ _
  · exact getField_applySet_not_mem _ _ _
      (email_not_mem_profileUpdateData_keys _ _)

/-- Witness for C10: the concrete update of C7 leaves the email as it
    was. -/
theorem c10_update_preserves_email_witness :
    getField
      (applySet
        [("name", Value.str "A"), ("email", Value.str "a@b.com"),
         ("age", Value.num 30)]
        (profileUpdateData { age := some 31 } 9)) "email"
      = some (Value.str "a@b.com") := by
  have h := c10_update_preserves_email "a@b.com" { age := some 31 } 9
    ⟨[("userprofile",
       [[("name", Value.str "A"), ("email", Value.str "a@b.com"),
         ("age", Value.num 30)]])], 3⟩
    []
    [("name", Value.str "A"), ("email", Value.str "a@b.com"),
     ("age", Value.num 30)]
    [] (by decide) (by intro x hx; cases hx) (by decide)
  rw [h.2]
  decide

/-- The assistant reply `chat` synthesizes for an inbound message. -/
def assistantReplyOf (m : ChatMessage) : ChatMessage :=
  { conversation_id := m.conversation_id
    role := .assistant
    content := replyText
    owner_email := m.owner_email }

/-- Shared shape of the chat handler: exactly two documents appended to
    the chatmessage collection and both fresh identifiers returned. -/
theorem chat_eq (m : ChatMessage) (st : Store) :
    (chat m st).1
      = { user_message_id := oidStr st.nextId
          assistant_message_id := oidStr (st.nextId + 1)
          reply := replyText }
    ∧ getColl (chat m st).2 "chatmessage"
        = getColl st "chatmessage"
          ++ [("_id", Value.oid st.nextId) :: docOfChatMessage m,
              ("_id", Value.oid (st.nextId + 1))
                :: docOfChatMessage (assistantReplyOf m)]
    ∧ (∀ c, c ≠ "chatmessage" → getColl (chat m st).2 c = getColl st c) := by
  refine ⟨rfl, ?_, ?_⟩
  · show collsGet
        (collsInsert
          (collsInsert st.colls "chatmessage"
            (("_id", Value.oid st.nextId) :: docOfChatMessage m))
          "chatmessage"
          (("_id", Value.oid (st.nextId + 1))
            :: docOfChatMessage (assistantReplyOf m)))
        "chatmessage" = _
    rw [collsGet_collsInsert_self, collsGet_collsInsert_self]
    simp [getColl]
  · intro c hc
    show collsGet
        (collsInsert
          (collsInsert st.colls "chatmessage"
            (("_id", Value.oid st.nextId) :: docOfChatMessage m))
          "chatmessage"
          (("_id", Value.oid (st.nextId + 1))
            :: docOfChatMessage (assistantReplyOf m)))
        c = _
    rw [collsGet_collsInsert_ne _ _ _ _ hc, collsGet_collsInsert_ne _ _ _ _ hc]
    rfl

/-- C3: a user-role chat message is persisted verbatim together with
    exactly one assistant reply that shares its conversation_id and
    owner_email, carries role assistant and the fixed advisory text, and
    both generated identifiers and the reply text are returned. -/
theorem c3_chat_user_two_messages (m : ChatMessage) (st : Store)
    (h : m.role = .user) :
    (chat m st).1
      = { user_message_id := oidStr st.nextId
          assistant_message_id := oidStr (st.nextId + 1)
          reply := replyText }
    ∧ getColl (chat m st).2 "chatmessage"
        = getColl st "chatmessage"
          ++ [("_id", Value.oid st.nextId) :: docOfChatMessage m,
              ("_id", Value.oid (st.nextId + 1))
                :: docOfChatMessage (assistantReplyOf m)]
    ∧ (∀ c, c ≠ "chatmessage" → getColl (chat m st).2 c = getColl st c)
    ∧ (assistantReplyOf m).conversation_id = m.conversation_id
    ∧ (assistantReplyOf m).owner_email = m.owner_email
    ∧ (assistantReplyOf m).role = .assistant
    ∧ (assistantReplyOf m).content = replyText := by
  obtain ⟨h1, h2, h3⟩ := chat_eq m st
  exact ⟨h1, h2, h3, rfl, rfl, rfl, rfl⟩

/-- Witness for C3 on a concrete user message and empty store. -/
theorem c3_chat_user_two_messages_witness :
    (chat { conversation_id := some "c1", role := .user, content := "hi",
            owner_email := some "a@b.com" } ⟨[], 4⟩).1
      = { user_message_id := oidStr 4
          assistant_message_id := oidStr 5
          reply := replyText }
    ∧ getColl
        (chat { conversation_id := some "c1", role := .user, content := "hi",
                owner_email := some "a@b.com" } ⟨[], 4⟩).2 "chatmessage"
      = [("_id", Value.oid 4)
           :: docOfChatMessage
                { conversation_id := some "c1", role := .user,
                  content := "hi", owner_email := some "a@b.com" },
         ("_id", Value.oid 5)
           :: docOfChatMessage
                (assistantReplyOf
                  { conversation_id := some "c1", role := .user,
                    content := "hi", owner_email := some "a@b.com" })] := by
  have h := c3_chat_user_two_messages
    { conversation_id := some "c1", role := .user, content := "hi",
      owner_email := some "a@b.com" } ⟨[], 4⟩ rfl
  exact ⟨h.1, h.2.1⟩

/-- C9: the chat endpoint does not restrict the inbound role; an
    assistant-role message is handled identically, still receiving exactly
    one synthesized assistant reply. -/
theorem c9_chat_assistant_same_behavior (m : ChatMessage) (st : Store)
    (h : m.role = .assistant) :
    (chat m st).1
      = { user_message_id := oidStr st.nextId
          assistant_message_id := oidStr (st.nextId + 1)
          reply := replyText }
    ∧ getColl (chat m st).2 "chatmessage"
        = getColl st "chatmessage"
          ++ [("_id", Value.oid st.nextId) :: docOfChatMessage m,
              ("_id", Value.oid (st.nextId + 1))
                :: docOfChatMessage (assistantReplyOf m)]
    ∧ (∀ c, c ≠ "chatmessage" → getColl (chat m st).2 c = getColl st c)
    ∧ (assistantReplyOf m).role = .assistant := by
  obtain ⟨h1, h2, h3⟩ := chat_eq m st
  exact ⟨h1, h2, h3, rfl⟩

/-- Witness for C9 on a concrete assistant-role message. -/
theorem c9_chat_assistant_same_behavior_witness :
    (chat { role := .assistant, content := "note" } ⟨[], 0⟩).1
      = { user_message_id := oidStr 0
          assistant_message_id := oidStr 1
          reply := replyText }
    ∧ getColl (chat { role := .assistant, content := "note" } ⟨[], 0⟩).2
        "chatmessage"
      = [("_id", Value.oid 0)
           :: docOfChatMessage { role := .assistant, content := "note" },
         ("_id", Value.oid 1)
           :: docOfChatMessage
                (assistantReplyOf
                  { role := .assistant, content := "note" })] := by
  have h := c9_chat_assistant_same_behavior
    { role := .assistant, content := "note" } ⟨[], 0⟩ rfl
  exact ⟨h.1, h.2.1⟩

theorem intQuery_ok_cases (dflt lo hi : Int) (lim : Option Int) (l : Int)
    (h : intQuery dflt lo hi lim = .ok l) :
    (lim = none ∧ l = dflt) ∨ (lim = some l ∧ lo ≤ l ∧ l ≤ hi) := by
  cases lim with
  | none =>
      left
      refine ⟨rfl, ?_⟩
      have : (Except.ok dflt : Except HErr Int) = .ok l := h
      simpa using this.symm
  | some x =>
      right
      simp only [intQuery] at h
      by_cases hc : x < lo ∨ hi < x
      · rw [if_pos hc] at h
        exact absurd h (by simp)
      · rw [if_neg hc] at h
        push_neg at hc
        have hx : x = l := by simpa using h
        subst hx
        exact ⟨rfl, hc.1, hc.2⟩

theorem intQuery_reject (dflt lo hi l : Int) (hl : l < lo ∨ hi < l) :
    intQuery dflt lo hi (some l) = .error .validation := by
  simp only [intQuery]
  rw [if_pos hl]

theorem intQuery_ok_toNat_le (dflt lo hi : Int) (hd : 0 ≤ dflt)
    (hlo : 0 ≤ lo) (lim : Option Int) (l : Int)
    (hq : intQuery dflt lo hi lim = .ok l) :
    (l.toNat : Int) ≤ lim.getD dflt := by
  rcases intQuery_ok_cases dflt lo hi lim l hq with ⟨hn, hl⟩ | ⟨hs, h1, h2⟩
  · subst hn
    subst hl
    simp [Int.toNat_of_nonneg hd]
  · subst hs
    simp only [Option.getD_some]
    rw [Int.toNat_of_nonneg (le_trans hlo h1)]

theorem length_serialized_get_documents_le (coll : String)
    (filt : List (String × Value)) (n : Nat) (st : Store) :
    ((get_documents coll filt n st).map serializeDoc).length ≤ n := by
  rw [List.length_map]
  exact List.length_take_le _ _

theorem length_serialized_chatHistoryDocs_le (cid oe : Option String)
    (n now : Nat) (st : Store) :
    ((chatHistoryDocs cid oe n now st).map serializeDoc).length ≤ n := by
  rw [List.length_map]
  unfold chatHistoryDocs
  rw [length_sortByKey]
  exact List.length_take_le _ _

/-- C5: every list endpoint returns at most the requested limit of
    documents (the stated default applying when the parameter is absent),
    and a provided limit outside the endpoint range is rejected with a
    validation error: reports and symptom lists take 1-100 default 25,
    chat history takes 1-200 default 50, reminders take 1-100 default 50. -/
theorem c5_list_limits (st : Store) (owner cid : Option String) :
    (∀ (lim : Option Int) (docs : List Doc),
        list_reports owner lim st = .ok docs →
        (docs.length : Int) ≤ lim.getD 25)
    ∧ (∀ l : Int, l < 1 ∨ 100 < l →
        list_reports owner (some l) st = .error .validation)
    ∧ (∀ (lim : Option Int) (docs : List Doc),
        list_symptom_checks owner lim st = .ok docs →
        (docs.length : Int) ≤ lim.getD 25)
    ∧ (∀ l : Int, l < 1 ∨ 100 < l →
        list_symptom_checks owner (some l) st = .error .validation)
    ∧ (∀ (now : Nat) (lim : Option Int) (docs : List Doc),
        chat_history cid owner lim now st = .ok docs →
        (docs.length : Int) ≤ lim.getD 50)
    ∧ (∀ l : Int, l < 1 ∨ 200 < l → ∀ now : Nat,
        chat_history cid owner (some l) now st = .error .validation)
    ∧ (∀ (lim : Option Int) (docs : List Doc),
        list_reminders owner lim st = .ok docs →
        (docs.length : Int) ≤ lim.getD 50)
    ∧ (∀ l : Int, l < 1 ∨ 100 < l →
        list_reminders owner (some l) st = .error .validation) := by
  refine ⟨?_, ?_, ?_, ?_, ?_, ?_, ?_, ?_⟩
  · intro lim docs h
    unfold list_reports at h
    cases hq : intQuery 25 1 100 lim with
    | error e => rw [hq] at h; exact absurd h (by simp)
    | ok l =>
        rw [hq] at h
        simp only [Except.ok.injEq] at h
        subst h
        exact le_trans
          (by exact_mod_cast length_serialized_get_documents_le _ _ _ _)
          (intQuery_ok_toNat_le 25 1 100 (by norm_num) (by norm_num) lim l hq)
  · intro l hl
    unfold list_reports
    rw [intQuery_reject 25 1 100 l hl]
  · intro lim docs h
    unfold list_symptom_checks at h
    cases hq : intQuery 25 1 100 lim with
    | error e => rw [hq] at h; exact absurd h (by simp)
    | ok l =>
        rw [hq] at h
        simp only [Except.ok.injEq] at h
        subst h
        exact le_trans
          (by exact_mod_cast length_serialized_get_documents_le _ _ _ _)
          (intQuery_ok_toNat_le 25 1 100 (by norm_num) (by norm_num) lim l hq)
  · intro l hl
    unfold list_symptom_checks
    rw [intQuery_reject 25 1 100 l hl]
  · intro now lim docs h
    unfold chat_history at h
    cases hq : intQuery 50 1 200 lim with
    | error e => rw [hq] at h; exact absurd h (by simp)
    | ok l =>
        rw [hq] at h
        simp only [Except.ok.injEq] at h
        subst h
        exact le_trans
          (by exact_mod_cast length_serialized_chatHistoryDocs_le _ _ _ _ _)
          (intQuery_ok_toNat_le 50 1 200 (by norm_num) (by norm_num) lim l hq)
  · intro l hl now
    unfold chat_history
    rw [intQuery_reject 50 1 200 l hl]
  · intro lim docs h
    unfold list_reminders at h
    cases hq : intQuery 50 1 100 lim with
    | error e => rw [hq] at h; exact absurd h (by simp)
    | ok l =>
        rw [hq] at h
        simp only [Except.ok.injEq] at h
        subst h
        exact le_trans
          (by exact_mod_cast length_serialized_get_documents_le _ _ _ _)
          (intQuery_ok_toNat_le 50 1 100 (by norm_num) (by norm_num) lim l hq)
  · intro l hl
    unfold list_reminders
    rw [intQuery_reject 50 1 100 l hl]

/-- Witness for C5: an out-of-range limit is rejected and an in-range
    query on an empty store returns no more than the default. -/
theorem c5_list_limits_witness :
    list_reports none (some 101) (Store.mk [] 0) = .error .validation
    ∧ chat_history none none (some 0) 0 (Store.mk [] 0) = .error .validation
    ∧ list_reminders none (some 500) (Store.mk [] 0) = .error .validation
    ∧ list_symptom_checks none (some (-1)) (Store.mk [] 0)
        = .error .validation := by
  obtain ⟨h1, h2, h3, h4, h5, h6, h7, h8⟩ := c5_list_limits (Store.mk [] 0) none none
  exact ⟨h2 101 (by norm_num), h6 0 (by norm_num) 0, h8 500 (by norm_num),
    h4 (-1) (by norm_num)⟩

theorem mem_sortByKey (key : Doc → Nat) (x : Doc) (l : List Doc) :
    x ∈ sortByKey key l ↔ x ∈ l := by
  induction l with
  | nil => simp [sortByKey]
  | cons a t ih =>
      rw [sortByKey, mem_orderedInsertBy]
      simp [ih]

/-- C8: for every chat-history query, the returned sequence is in
    non-decreasing order of the created_at field: the ok result is the
    serialization, in order, of the sorted document sequence, and along
    that sequence any two documents bearing datetime created_at fields
    appear with non-decreasing timestamps. -/
theorem c8_chat_history_sorted (cid oe : Option String) (lim : Option Int)
    (now : Nat) (st : Store) (docs : List Doc)
    (hok : chat_history cid oe lim now st = .ok docs) :
    ∃ l : Int, intQuery 50 1 200 lim = .ok l
      ∧ docs = (chatHistoryDocs cid oe l.toNat now st).map serializeDoc
      ∧ (chatHistoryDocs cid oe l.toNat now st).Pairwise
          (fun a b => ∀ ta tb,
            getField a "created_at" = some (Value.dt ta) →
            getField b "created_at" = some (Value.dt tb) → ta ≤ tb) := by
  unfold chat_history at hok
  cases hq : intQuery 50 1 200 lim with
  | error e => rw [hq] at hok; exact absurd hok (by simp)
  | ok l =>
      rw [hq] at hok
      simp only [Except.ok.injEq] at hok
      refine ⟨l, rfl, hok.symm, ?_⟩
      have hp := pairwise_sortByKey (createdKey now)
        (get_documents "chatmessage"
          (strQueryFilt "conversation_id" cid ++ strQueryFilt "owner_email" oe)
          l.toNat st)
      refine hp.imp ?_
      intro a b hab ta tb hta htb
      have ha : createdKey now a = ta := by simp [createdKey, hta]
      have hb : createdKey now b = tb := by simp [createdKey, htb]
      rw [ha, hb] at hab
      exact hab

/-- Witness for C8: a store holding two chat messages with out-of-order
    timestamps; the history endpoint returns them sorted by created_at. -/
theorem c8_chat_history_sorted_witness :
    ∃ l : Int, intQuery 50 1 200 none = .ok l
      ∧ [[("created_at", Value.str "2"), ("content", Value.str "b")],
         [("created_at", Value.str "5"), ("content", Value.str "a")]]
          = (chatHistoryDocs none none l.toNat 0
              ⟨[("chatmessage",
                 [[("created_at", Value.dt 5), ("content", Value.str "a")],
                  [("created_at", Value.dt 2), ("content", Value.str "b")]])],
                0⟩).map serializeDoc
      ∧ (chatHistoryDocs none none l.toNat 0
          ⟨[("chatmessage",
             [[("created_at", Value.dt 5), ("content", Value.str "a")],
              [("created_at", Value.dt 2), ("content", Value.str "b")]])],
            0⟩).Pairwise
          (fun a b => ∀ ta tb,
            getField a "created_at" = some (Value.dt ta) →
            getField b "created_at" = some (Value.dt tb) → ta ≤ tb) :=
  c8_chat_history_sorted none none none 0
    ⟨[("chatmessage",
       [[("created_at", Value.dt 5), ("content", Value.str "a")],
        [("created_at", Value.dt 2), ("content", Value.str "b")]])], 0⟩
    [[("created_at", Value.str "2"), ("content", Value.str "b")],
     [("created_at", Value.str "5"), ("content", Value.str "a")]]
    (by rfl)

end Aarogya
